import Mathlib

/-!
Shallow embedding of the Semiconductor Process Flow Editor core
(`src/src/App.js`).  Conventions used throughout:

* JavaScript numbers are modelled as `ℚ` (the catalog and all claims only
  exercise exact decimal arithmetic).
* Timestamps are modelled as `Nat` milliseconds: `Date.now()` returns such a
  value, and `new Date().toISOString()` is strictly monotone and injective in
  it, so ordering of the ISO strings coincides with ordering of the `Nat`s.
* A value that may be a JS number or a JS string (the `totalEnergy` field of
  the impact record, which is the number `0` on the empty sequence and the
  string produced by `toFixed(1)` otherwise) is modelled by `JSVal`.
* A serialized flow document is modelled structurally: `JSON.parse` either
  throws (`Doc.malformed`) or yields the encoded record (`Doc.parsed f`);
  `JSON.stringify` on a flow record is inverted by `JSON.parse`, so
  `exportFlow` produces `Doc.parsed` of the flow.  A flow whose `steps` field
  is absent (JS `undefined`) is modelled with `steps = none`.
-/

namespace ProcessFlowEditor

/-- A JavaScript value that is either a number or a string. -/
inductive JSVal where
  | num (q : ℚ)
  | str (s : String)
deriving DecidableEq

/-- A process step record: the fields of a catalog template
(`PROCESS_STEPS_LIBRARY` entries) together with the `stepIndex` field that
`addStepToFlow` writes onto the copies it appends (App.js lines 60-64).
Catalog templates carry a dummy `stepIndex`; it is overwritten on every
insertion, exactly as the JS spread `{...step, id: ..., stepIndex: ...}`
overwrites it. -/
structure Step where
  id : String
  name : String
  duration : ℚ
  power : ℚ
  chemicals : List String
  temperature : ℚ
  envImpact : String
  stepIndex : Nat
deriving DecidableEq

/-- A flow record (App.js lines 43-50).  `steps` is `none` when the field is
absent (JS `undefined`), which happens for flows imported from a document
without a `steps` field; `createNewFlow` always sets `some []`. -/
structure Flow where
  id : Nat
  name : String
  description : String
  steps : Option (List Step)
  createdAt : Nat
  modifiedAt : Nat
deriving DecidableEq

/-- The component state relevant to the core logic: the `flows`,
`currentFlow` and `selectedSteps` `useState` cells (App.js lines 33-35). -/
structure EditorState where
  flows : List Flow
  currentFlow : Option Flow
  selectedSteps : List Step
deriving DecidableEq

/-- The initial component state (`useState([])`, `useState(null)`,
`useState([])`). -/
def initialState : EditorState :=
  { flows := [], currentFlow := none, selectedSteps := [] }

/-- Model of `createNewFlow` (App.js lines 42-54) at time `t` (`Date.now()` and the
ISO timestamps of the same instant). -/
def createNewFlow (t : Nat) (st : EditorState) : EditorState :=
  let newFlow : Flow :=
    { id := t
      name := "Process Flow " ++ toString (st.flows.length + 1)
      description := ""
      steps := some []
      createdAt := t
      modifiedAt := t }
  { flows := st.flows ++ [newFlow]
    currentFlow := some newFlow
    selectedSteps := [] }

/-- Model of `addStepToFlow` (App.js lines 57-77) at time `t`.  If no flow is active
it returns immediately; otherwise it appends a copy of `step` whose `id` is
`` `${step.id}_${Date.now()}` `` and whose `stepIndex` is the current
sequence length, and writes the updated flow back everywhere. -/
def addStepToFlow (st : EditorState) (step : Step) (t : Nat) : EditorState :=
  match st.currentFlow with
  | none => st
  | some currentFlow =>
    let newStep : Step :=
      { step with
        id := step.id ++ "_" ++ toString t
        stepIndex := st.selectedSteps.length }
    let updatedSteps := st.selectedSteps ++ [newStep]
    let updatedFlow : Flow :=
      { currentFlow with steps := some updatedSteps, modifiedAt := t }
    { flows := st.flows.map (fun f => if f.id = currentFlow.id then updatedFlow else f)
      currentFlow := some updatedFlow
      selectedSteps := updatedSteps }

/-- Model of JavaScript `Array.prototype.filter` with the element index, starting the
count at `n`: `filterIdxFrom p 0 l` keeps exactly the elements `l[i]` with
`p i l[i] = true`, in order. -/
def filterIdxFrom {α : Type} (p : Nat → α → Bool) (n : Nat) : List α → List α
  | [] => []
  | x :: xs => if p n x then x :: filterIdxFrom p (n + 1) xs else filterIdxFrom p (n + 1) xs

/-- The step-sequence computation of `removeStep` (App.js line 81):
`selectedSteps.filter((_, index) => index !== stepIndex)`.  Note that it
neither bounds-checks `stepIndex` nor renumbers the `stepIndex` fields of the
surviving elements. -/
def removeStep (steps : List Step) (stepIndex : Nat) : List Step :=
  filterIdxFrom (fun index _ => index != stepIndex) 0 steps

/-- The insertion step of the JS `Set` constructor: an element already seen
is skipped, a new one is appended (insertion order is preserved by JS sets). -/
def jsSetInsert (acc : List String) (x : String) : List String :=
  if x ∈ acc then acc else acc ++ [x]

/-- Model of `[...new Set(l)]`: deduplication keeping the first occurrence of every
element, in insertion order. -/
def jsSetDedup (l : List String) : List String :=
  l.foldl jsSetInsert []

/-- Model of `Number.prototype.toFixed(1)` on an exact rational: round to the
nearest tenth (ties away from the decimal point, per the ECMA `toFixed`
algorithm of choosing the larger candidate on the magnitude) and print with
exactly one fractional digit.  (The exponential-notation branch for
magnitudes ≥ 1e21 is out of the exercised range and not modelled.) -/
def toFixed1 (q : ℚ) : String :=
  let sign := if q < 0 then "-" else ""
  let x : ℚ := if q < 0 then -q else q
  let n : Int := ⌊10 * x + 1 / 2⌋
  sign ++ toString (n.natAbs / 10) ++ "." ++ toString (n.natAbs % 10)

/-- The result record of `calculateEnvironmentalImpact` (App.js line 108):
`{ totalEnergy, totalTime, chemicals, riskLevel }`.  `totalEnergy` is a
`JSVal` because the code returns the number `0` on the empty sequence but the
string `totalEnergy.toFixed(1)` otherwise. -/
structure Impact where
  totalEnergy : JSVal
  totalTime : ℚ
  chemicals : List String
  riskLevel : String
deriving DecidableEq

/-- Model of `calculateEnvironmentalImpact` (App.js lines 96-109) as a function of the
step sequence it reads. -/
def calculateEnvironmentalImpact (selectedSteps : List Step) : Impact :=
  if selectedSteps.length = 0 then
    { totalEnergy := JSVal.num 0, totalTime := 0, chemicals := [], riskLevel := "low" }
  else
    let totalEnergy : ℚ :=
      selectedSteps.foldl (fun sum step => sum + step.power * step.duration / 60) 0
    let totalTime : ℚ :=
      selectedSteps.foldl (fun sum step => sum + step.duration) 0
    let chemicals : List String :=
      jsSetDedup (selectedSteps.flatMap (fun step => step.chemicals))
    let highImpactSteps : Nat :=
      (selectedSteps.filter (fun step => (["high", "very_high"] : List String).contains step.envImpact)).length
    let riskLevel : String :=
      if highImpactSteps > 2 then "very_high"
      else if highImpactSteps > 0 then "high"
      else if selectedSteps.length > 5 then "medium"
      else "low"
    { totalEnergy := JSVal.str (toFixed1 totalEnergy)
      totalTime := totalTime
      chemicals := chemicals
      riskLevel := riskLevel }

/-- A serialized flow document as seen through `JSON.parse`: either the parse
throws, or it yields the encoded flow record. -/
inductive Doc where
  | malformed
  | parsed (f : Flow)
deriving DecidableEq

/-- The import failure surfaced by the `catch` branch of `importFlow`
(App.js line 157, `alert('Error importing flow: Invalid JSON file')`). -/
inductive ImportError where
  | parseFailure
deriving DecidableEq

/-- Model of `exportFlow` (App.js lines 129-139) serializes the given flow with
`JSON.stringify`; parsing that text recovers the record, so the produced
document is `Doc.parsed f`. -/
def exportFlow (f : Flow) : Doc := Doc.parsed f

/-- Model of `importFlow` (App.js lines 142-161) at time `t`: on a parse failure the
state is untouched and the error is surfaced; on success the parsed record
gets `id = Date.now()` and `modifiedAt = now`, is appended to `flows`, made
current, and `selectedSteps` becomes `importedFlow.steps || []`. -/
def importFlow (doc : Doc) (t : Nat) (st : EditorState) :
    EditorState × Option ImportError :=
  match doc with
  | Doc.malformed => (st, some ImportError.parseFailure)
  | Doc.parsed f =>
    let importedFlow : Flow := { f with id := t, modifiedAt := t }
    ({ flows := st.flows ++ [importedFlow]
       currentFlow := some importedFlow
       selectedSteps := importedFlow.steps.getD [] }, none)

/-- Predicate telling whether a `JSVal` is a JS number. -/
def JSVal.isNum : JSVal → Bool
  | JSVal.num _ => true
  | JSVal.str _ => false

/-- Modelled from the spec: deduplication with "duplicates removed,
first-occurrence order preserved" — keep the first occurrence of every
element and delete all its later duplicates.  Used as the independent
reference the code-side `jsSetDedup` is compared against. -/
def specDedup : List String → List String
  | [] => []
  | x :: xs => x :: specDedup (xs.filter (fun y => y != x))
termination_by l => l.length
decreasing_by simp only [List.length_cons]; exact Nat.lt_succ_of_le (List.length_filter_le _ _)

/-- Modelled from the spec: the count of steps whose
`envImpact ∈ {high, very_high}`. -/
def highCount (steps : List Step) : Nat :=
  (steps.filter (fun s => decide (s.envImpact = "high" ∨ s.envImpact = "very_high"))).length

/-- Modelled from the spec: the risk-level policy, evaluated in this exact
order: `highCount > 2 → very_high`; else `highCount > 0 → high`; else
`len(sequence) > 5 → medium`; else `low`. -/
def specRiskLevel (steps : List Step) : String :=
  if highCount steps > 2 then "very_high"
  else if highCount steps > 0 then "high"
  else if steps.length > 5 then "medium"
  else "low"

/-! ### Concrete fixtures (catalog entries of `PROCESS_STEPS_LIBRARY`) -/

/-- The `cvd_oxide` catalog template (App.js line 7). -/
def tmplCvd : Step :=
  { id := "cvd_oxide", name := "CVD Oxide", duration := 120, power := 2500
    chemicals := ["TEOS", "O2"], temperature := 400, envImpact := "medium", stepIndex := 0 }

/-- The `ald_hfO2` catalog template (App.js line 9), a high-impact step. -/
def stepHigh : Step :=
  { id := "ald_hfO2", name := "ALD HfO2", duration := 180, power := 1500
    chemicals := ["TDMAH", "H2O"], temperature := 300, envImpact := "high", stepIndex := 0 }

/-- The `pvd_metal` catalog template (App.js line 8), a low-impact step. -/
def stepLow : Step :=
  { id := "pvd_metal", name := "PVD Metal", duration := 90, power := 3000
    chemicals := ["Ar", "Ti"], temperature := 25, envImpact := "low", stepIndex := 0 }

/-- A step instance as produced by appending `tmplCvd` at position 0. -/
def instA : Step := { tmplCvd with id := "cvd_oxide_100", stepIndex := 0 }

/-- A step instance as produced by appending `wet_etch_metal` at position 1. -/
def instB : Step :=
  { id := "wet_etch_metal_200", name := "Wet Etch Metal", duration := 30, power := 0
    chemicals := ["H2SO4", "H2O2"], temperature := 80, envImpact := "high", stepIndex := 1 }

/-- A concrete flow record used for import/export experiments. -/
def flowB : Flow :=
  { id := 7, name := "Flow B", description := "demo", steps := some [instA]
    createdAt := 3, modifiedAt := 3 }

/-- A parsed import document whose `steps` field is absent. -/
def flowNoSteps : Flow :=
  { id := 3, name := "Imported", description := "from file", steps := none
    createdAt := 1, modifiedAt := 2 }

/-! ### Helper lemmas -/

/-- Evaluation of the index-aware filter used by `removeStep`: counting from
`n`, removing index `i` keeps everything when `i` is left of the window and
otherwise splices out the element at offset `i - n`. -/
theorem filterIdxFrom_remove {α : Type} (i : Nat) (l : List α) : ∀ n : Nat,
    filterIdxFrom (fun index _ => index != i) n l =
      if i < n then l else l.take (i - n) ++ l.drop (i - n + 1) := by
  induction l with
  | nil =>
    intro n
    simp [filterIdxFrom]
  | cons x xs ih =>
    intro n
    by_cases h : n = i
    · subst h
      simp only [filterIdxFrom, bne_self_eq_false, Bool.false_eq_true, if_false, ih (n + 1)]
      rw [if_pos (Nat.lt_succ_self n), if_neg (Nat.lt_irrefl n), Nat.sub_self]
      simp
    · have hne : (n != i) = true := by simpa using h
      simp only [filterIdxFrom, hne, if_true]
      rw [ih (n + 1)]
      by_cases hlt : i < n
      · rw [if_pos (Nat.lt_succ_of_lt hlt), if_pos hlt]
      · have hgt : n < i := Nat.lt_of_le_of_ne (Nat.le_of_not_lt hlt) h
        rw [if_neg (by omega), if_neg hlt]
        have h1 : i - n = (i - (n + 1)) + 1 := by omega
        rw [h1]
        simp [List.take_succ_cons, List.drop_succ_cons]

/-- `removeStep` written as take/drop around the removed index. -/
theorem removeStep_eq_take_drop (steps : List Step) (i : Nat) :
    removeStep steps i = steps.take i ++ steps.drop (i + 1) := by
  unfold removeStep
  have e := filterIdxFrom_remove i steps 0
  rwa [if_neg (Nat.not_lt_zero i), Nat.sub_zero] at e

/-- Elements of `specDedup l` are exactly the elements of `l`. -/
theorem mem_specDedup (x : String) (l : List String) : x ∈ specDedup l ↔ x ∈ l := by
  induction l using specDedup.induct with
  | case1 => simp [specDedup]
  | case2 y ys ih =>
    simp only [specDedup, List.mem_cons, ih, List.mem_filter]
    by_cases h : x = y <;> simp [h]

/-- `specDedup` produces a duplicate-free list. -/
theorem nodup_specDedup (l : List String) : (specDedup l).Nodup := by
  induction l using specDedup.induct with
  | case1 => simp [specDedup]
  | case2 y ys ih =>
    simp only [specDedup, List.nodup_cons, ih, and_true]
    rw [mem_specDedup]
    simp

/-- Running the JS `Set` insertion fold from an arbitrary accumulator
appends the first occurrences of the not-yet-seen elements. -/
theorem foldl_jsSetInsert (l : List String) : ∀ acc : List String,
    l.foldl jsSetInsert acc = acc ++ specDedup (l.filter (fun x => decide (x ∉ acc))) := by
  induction l with
  | nil => intro acc; simp [specDedup]
  | cons x xs ih =>
    intro acc
    simp only [List.foldl_cons, List.filter_cons]
    by_cases hx : x ∈ acc
    · rw [show (decide (x ∉ acc)) = false by simp [hx]]
      simp only [Bool.false_eq_true, if_false]
      rw [show jsSetInsert acc x = acc from if_pos hx]
      exact ih acc
    · rw [show (decide (x ∉ acc)) = true by simp [hx]]
      simp only [if_true]
      rw [show jsSetInsert acc x = acc ++ [x] from if_neg hx]
      rw [ih (acc ++ [x])]
      have hf : xs.filter (fun y => decide (y ∉ acc ++ [x]))
          = (xs.filter (fun y => decide (y ∉ acc))).filter (fun y => y != x) := by
        rw [List.filter_filter]
        apply List.filter_congr
        intro y _
        by_cases h1 : y ∈ acc <;> by_cases h2 : y = x <;> simp [h1, h2]
      rw [hf]
      simp [specDedup, List.append_assoc]

/-- The JS `Set`-based deduplication agrees with the spec-side
first-occurrence deduplication. -/
theorem jsSetDedup_eq_specDedup (l : List String) : jsSetDedup l = specDedup l := by
  have h := foldl_jsSetInsert l []
  simpa [jsSetDedup, List.filter_true] using h

/-- JS `['high', 'very_high'].includes(s)` decides membership in the
two-element set. -/
theorem contains_high_eq (s : String) :
    ((["high", "very_high"] : List String).contains s)
      = decide (s = "high" ∨ s = "very_high") := by
  by_cases h1 : s = "high" <;> by_cases h2 : s = "very_high" <;> simp [h1, h2]

/-- A left fold accumulating `a + f x` computes the sum of the mapped list. -/
theorem foldl_add_eq_sum_map (f : Step → ℚ) (l : List Step) :
    l.foldl (fun a x => a + f x) 0 = (l.map f).sum := by
  rw [List.sum_eq_foldl, List.foldl_map]

/-- Evaluation rule for `toFixed1` on a non-negative rational whose scaled
rounding is known. -/
theorem toFixed1_eval (q : ℚ) (n : Nat) (h0 : ¬ q < 0) (hn : ⌊10 * q + 1 / 2⌋ = (n : Int)) :
    toFixed1 q = toString (n / 10) ++ "." ++ toString (n % 10) := by
  simp only [toFixed1]
  rw [if_neg h0, if_neg h0, hn]
  simp

/-! ### Claim theorems -/

/-- C1 (counterexample): removing index 0 from the two-instance sequence
`[instA, instB]` (positions 0 and 1) leaves the survivor with its original
`stepIndex` 1, not its new index 0 — the code never renumbers positions. -/
theorem removeStep_stale_position_cex :
    removeStep [instA, instB] 0 = [instB] ∧
    (removeStep [instA, instB] 0).map Step.stepIndex = [1] ∧
    ((removeStep [instA, instB] 0).map Step.stepIndex ≠ [0]) := by
  refine ⟨by decide, by decide, by decide⟩

/-- C1 (amended): for every in-range index, `removeStep` returns exactly the
`n-1` survivors in their original relative order with all their fields (in
particular `stepIndex`) unchanged: the result is `take i ++ drop (i+1)`, so
positions are carried over verbatim and are NOT renumbered. -/
theorem removeStep_survivors (steps : List Step) (i : Nat) (h : i < steps.length) :
    removeStep steps i = steps.take i ++ steps.drop (i + 1) ∧
    (removeStep steps i).length = steps.length - 1 := by
  refine ⟨removeStep_eq_take_drop steps i, ?_⟩
  rw [removeStep_eq_take_drop steps i, List.length_append, List.length_take, List.length_drop]
  omega

/-- C1 (witness): the amended statement at the concrete two-step sequence. -/
theorem removeStep_survivors_witness :
    removeStep [instA, instB] 1 = [instA, instB].take 1 ++ [instA, instB].drop 2 ∧
    (removeStep [instA, instB] 1).length = [instA, instB].length - 1 :=
  removeStep_survivors [instA, instB] 1 (by decide)

/-- C7 (counterexample): `removeStep` with an out-of-range index does not
fail — it returns a sequence: on the empty sequence at index 0 it returns
`[]`, and on a one-element sequence at index 5 it returns the sequence
unchanged.  The code has no error path at all (no `IndexError`). -/
theorem removeStep_out_of_range_cex :
    removeStep ([] : List Step) 0 = [] ∧ removeStep [instA] 5 = [instA] := by
  refine ⟨by decide, by decide⟩

/-- C7 (amended): for every out-of-range index (including any index on the
empty sequence), `removeStep` is a silent no-op returning the sequence
unchanged, rather than failing. -/
theorem removeStep_out_of_range_noop (steps : List Step) (i : Nat)
    (h : steps.length ≤ i) : removeStep steps i = steps := by
  rw [removeStep_eq_take_drop steps i,
    List.take_of_length_le (by omega), List.drop_eq_nil_of_le (by omega), List.append_nil]

/-- C7 (witness): the amended statement at concrete out-of-range inputs. -/
theorem removeStep_out_of_range_noop_witness :
    removeStep [instA] 5 = [instA] :=
  removeStep_out_of_range_noop [instA] 5 (by decide)

/-- C2: `calculateEnvironmentalImpact` assigns `riskLevel` by the exact
ordered policy of the spec (`highCount > 2 → very_high`, else
`highCount > 0 → high`, else `length > 5 → medium`, else `low`), and the
boundary cases hold: 3 high-impact steps give `very_high`, 1 gives `high`,
6 low-impact steps give `medium`, 5 or fewer low-impact steps give `low`. -/
theorem riskLevel_policy :
    (∀ steps : List Step,
      (calculateEnvironmentalImpact steps).riskLevel = specRiskLevel steps) ∧
    (calculateEnvironmentalImpact [stepHigh, stepHigh, stepHigh]).riskLevel = "very_high" ∧
    (calculateEnvironmentalImpact [stepHigh]).riskLevel = "high" ∧
    (calculateEnvironmentalImpact
      [stepLow, stepLow, stepLow, stepLow, stepLow, stepLow]).riskLevel = "medium" ∧
    (calculateEnvironmentalImpact [stepLow, stepLow, stepLow, stepLow, stepLow]).riskLevel = "low" ∧
    (calculateEnvironmentalImpact []).riskLevel = "low" := by
  refine ⟨?_, by decide, by decide, by decide, by decide, by decide⟩
  intro steps
  cases steps with
  | nil => rfl
  | cons s ss =>
    simp only [calculateEnvironmentalImpact, specRiskLevel, highCount]
    rw [if_neg (by simp)]
    simp only [contains_high_eq]

/-- C9: the `chemicals` field is the spec-side first-occurrence
deduplication of the concatenated per-step chemical lists; it is
duplicate-free, contains exactly the chemicals occurring in some step, and
is empty for the empty sequence. -/
theorem chemicals_first_occurrence (steps : List Step) :
    (calculateEnvironmentalImpact steps).chemicals
        = specDedup (steps.flatMap (fun s => s.chemicals)) ∧
    ((calculateEnvironmentalImpact steps).chemicals).Nodup ∧
    (∀ x : String, x ∈ (calculateEnvironmentalImpact steps).chemicals ↔
        x ∈ steps.flatMap (fun s => s.chemicals)) ∧
    (calculateEnvironmentalImpact ([] : List Step)).chemicals = [] := by
  have key : (calculateEnvironmentalImpact steps).chemicals
      = specDedup (steps.flatMap (fun s => s.chemicals)) := by
    cases steps with
    | nil => simp [calculateEnvironmentalImpact, specDedup]
    | cons s ss =>
      simp only [calculateEnvironmentalImpact]
      rw [if_neg (by simp)]
      exact jsSetDedup_eq_specDedup _
  refine ⟨key, ?_, ?_, rfl⟩
  · rw [key]; exact nodup_specDedup _
  · intro x; rw [key]; exact mem_specDedup x _

/-- C4 (counterexample): on the one-step sequence `[tmplCvd]` the reported
total energy is the STRING `"5000.0"` (the value of `toFixed(1)`), not a
number; and on the empty sequence it is the unformatted NUMBER `0`.  The
claim that the total is "returned as a number with 1 decimal" is false. -/
theorem totalEnergy_is_string_cex :
    (calculateEnvironmentalImpact [tmplCvd]).totalEnergy = JSVal.str "5000.0" ∧
    ((calculateEnvironmentalImpact [tmplCvd]).totalEnergy).isNum = false ∧
    (calculateEnvironmentalImpact ([] : List Step)).totalEnergy = JSVal.num 0 := by
  have h1 : (calculateEnvironmentalImpact [tmplCvd]).totalEnergy
      = JSVal.str (toFixed1 (0 + tmplCvd.power * tmplCvd.duration / 60)) := rfl
  have h2 : ((0 : ℚ) + tmplCvd.power * tmplCvd.duration / 60) = 5000 := by
    norm_num [tmplCvd]
  have h3 : toFixed1 (5000 : ℚ) = "5000.0" := by
    rw [toFixed1_eval 5000 50000 (by norm_num) (by norm_num)]
    decide
  rw [h1, h2, h3]
  exact ⟨rfl, rfl, rfl⟩

/-- C4 (amended): for every non-empty step sequence the reported total
energy is the decimal string with one fractional digit (`toFixed(1)`) of
`Σ powerWatts * durationMinutes / 60`, rounded to 1 decimal place; for the
empty sequence it is the number `0` (see the counterexample theorem). -/
theorem totalEnergy_formula (steps : List Step) (h : steps ≠ []) :
    (calculateEnvironmentalImpact steps).totalEnergy =
      JSVal.str (toFixed1 ((steps.map (fun s => s.power * s.duration / 60)).sum)) := by
  have hlen : ¬ steps.length = 0 := by
    simpa [List.length_eq_zero] using h
  simp only [calculateEnvironmentalImpact]
  rw [if_neg hlen, ← foldl_add_eq_sum_map (fun s => s.power * s.duration / 60) steps]

/-- C4 (witness): the amended statement at the one-step sequence. -/
theorem totalEnergy_formula_witness :
    (calculateEnvironmentalImpact [tmplCvd]).totalEnergy =
      JSVal.str (toFixed1 (([tmplCvd].map (fun s => s.power * s.duration / 60)).sum)) :=
  totalEnergy_formula [tmplCvd] (by decide)

/-- C3 (counterexample): importing the export of `flowB` (whose `id` is 7)
at `Date.now() = 7` — creation and import in the same millisecond — yields a
flow whose `id` EQUALS `flowB.id`, violating the required "id must
differ". -/
theorem import_export_id_collision_cex :
    ((importFlow (exportFlow flowB) 7 initialState).1.currentFlow.map Flow.id)
      = some flowB.id ∧ flowB.id = 7 :=
  ⟨rfl, rfl⟩

/-- C3 (amended): importing the export of `f` at time `t` succeeds and
yields a flow equal to `f` in `name`, `description`, `steps` and
`createdAt`, with `id = t` and `modifiedAt = t`; hence the id differs and
`modifiedAt ≥ f.modifiedAt` PROVIDED the import millisecond `t` differs
from `f.id` and is not earlier than `f.modifiedAt` (the code reassigns
`id = Date.now()`, which can collide when import happens in the same
millisecond the original id was minted). -/
theorem import_export_roundTrip (f : Flow) (t : Nat) (st : EditorState)
    (hid : t ≠ f.id) (hmod : f.modifiedAt ≤ t) :
    ∃ g : Flow, (importFlow (exportFlow f) t st).1.currentFlow = some g ∧
      g.name = f.name ∧ g.description = f.description ∧ g.steps = f.steps ∧
      g.createdAt = f.createdAt ∧ g.id ≠ f.id ∧ f.modifiedAt ≤ g.modifiedAt ∧
      (importFlow (exportFlow f) t st).2 = none :=
  ⟨{ f with id := t, modifiedAt := t }, rfl, rfl, rfl, rfl, rfl, hid, hmod, rfl⟩

/-- C3 (witness): the amended round-trip at `flowB` imported at time 10. -/
theorem import_export_roundTrip_witness :
    ∃ g : Flow, (importFlow (exportFlow flowB) 10 initialState).1.currentFlow = some g ∧
      g.name = flowB.name ∧ g.description = flowB.description ∧ g.steps = flowB.steps ∧
      g.createdAt = flowB.createdAt ∧ g.id ≠ flowB.id ∧ flowB.modifiedAt ≤ g.modifiedAt ∧
      (importFlow (exportFlow flowB) 10 initialState).2 = none :=
  import_export_roundTrip flowB 10 initialState (by decide) (by decide)

/-- The state after creating a flow at t = 999 and appending the `cvd_oxide`
template twice with the SAME `Date.now()` value 1000 — two rapid repeated
calls within one millisecond. -/
def collisionState : EditorState :=
  addStepToFlow (addStepToFlow (createNewFlow 999 initialState) tmplCvd 1000) tmplCvd 1000

/-- C5: two `addStepToFlow` calls with the same template in the same
millisecond produce the instance ids `"cvd_oxide_1000"` twice — the ids are
NOT pairwise distinct, because the code derives them from the coarse
wall-clock value alone (`` `${step.id}_${Date.now()}` ``). -/
theorem addStep_instanceId_collision :
    collisionState.selectedSteps.map Step.id = ["cvd_oxide_1000", "cvd_oxide_1000"] ∧
    ¬ (collisionState.selectedSteps.map Step.id).Nodup ∧
    collisionState.currentFlow.isSome = true := by
  refine ⟨by decide, by decide, by decide⟩

/-- C6: importing a syntactically invalid document surfaces the parse
failure and leaves the whole editor state — stored flows, active flow and
step sequence — exactly as it was. -/
theorem import_malformed_preserves_state (t : Nat) (st : EditorState) :
    importFlow Doc.malformed t st = (st, some ImportError.parseFailure) ∧
    (importFlow Doc.malformed t st).1.flows = st.flows ∧
    (importFlow Doc.malformed t st).1.currentFlow = st.currentFlow ∧
    (importFlow Doc.malformed t st).1.selectedSteps = st.selectedSteps :=
  ⟨rfl, rfl, rfl, rfl⟩

/-- C8 (counterexample): importing the document `flowNoSteps`, whose `steps`
field is absent, succeeds — but the STORED flow keeps `steps` absent
(`none`), which is not the empty step sequence (`some []`); only the active
`selectedSteps` cell becomes `[]`. -/
theorem import_absent_steps_cex :
    ((importFlow (Doc.parsed flowNoSteps) 5 initialState).1.flows.map Flow.steps) = [none] ∧
    ((none : Option (List Step)) ≠ some []) ∧
    (importFlow (Doc.parsed flowNoSteps) 5 initialState).1.selectedSteps = [] ∧
    (importFlow (Doc.parsed flowNoSteps) 5 initialState).2 = none := by
  refine ⟨rfl, by decide, rfl, rfl⟩

/-- C8 (amended): importing a document with an absent `steps` field
succeeds (no failure): `name`, `description` and `createdAt` are taken
as-is, the active step sequence becomes empty, and the stored flow keeps
its `steps` field absent (it is treated as empty by every reader, but not
normalized to an empty list). -/
theorem import_absent_steps (f : Flow) (t : Nat) (st : EditorState) (h : f.steps = none) :
    (importFlow (Doc.parsed f) t st).1.currentFlow = some { f with id := t, modifiedAt := t } ∧
    ({ f with id := t, modifiedAt := t } : Flow).steps = none ∧
    ({ f with id := t, modifiedAt := t } : Flow).name = f.name ∧
    ({ f with id := t, modifiedAt := t } : Flow).description = f.description ∧
    ({ f with id := t, modifiedAt := t } : Flow).createdAt = f.createdAt ∧
    (importFlow (Doc.parsed f) t st).1.selectedSteps = [] ∧
    (importFlow (Doc.parsed f) t st).1.flows = st.flows ++ [{ f with id := t, modifiedAt := t }] ∧
    (importFlow (Doc.parsed f) t st).2 = none := by
  refine ⟨rfl, h, rfl, rfl, rfl, ?_, rfl, rfl⟩
  show ({ f with id := t, modifiedAt := t } : Flow).steps.getD [] = []
  rw [show ({ f with id := t, modifiedAt := t } : Flow).steps = f.steps from rfl, h]
  rfl

/-- C8 (witness): the amended statement at the concrete stepless document. -/
theorem import_absent_steps_witness :
    (importFlow (Doc.parsed flowNoSteps) 5 initialState).1.currentFlow
        = some { flowNoSteps with id := 5, modifiedAt := 5 } ∧
    ({ flowNoSteps with id := 5, modifiedAt := 5 } : Flow).steps = none ∧
    ({ flowNoSteps with id := 5, modifiedAt := 5 } : Flow).name = flowNoSteps.name ∧
    ({ flowNoSteps with id := 5, modifiedAt := 5 } : Flow).description = flowNoSteps.description ∧
    ({ flowNoSteps with id := 5, modifiedAt := 5 } : Flow).createdAt = flowNoSteps.createdAt ∧
    (importFlow (Doc.parsed flowNoSteps) 5 initialState).1.selectedSteps = [] ∧
    (importFlow (Doc.parsed flowNoSteps) 5 initialState).1.flows
        = initialState.flows ++ [{ flowNoSteps with id := 5, modifiedAt := 5 }] ∧
    (importFlow (Doc.parsed flowNoSteps) 5 initialState).2 = none :=
  import_absent_steps flowNoSteps 5 initialState rfl

/-- C10: `addStepToFlow` with no active flow (`currentFlow = null`) is a
complete no-op: it returns without error and the stored flows, the active
flow reference and the current step sequence are all unchanged. -/
theorem addStep_noop_without_active_flow (st : EditorState) (step : Step) (t : Nat)
    (h : st.currentFlow = none) :
    addStepToFlow st step t = st ∧
    (addStepToFlow st step t).flows = st.flows ∧
    (addStepToFlow st step t).currentFlow = none ∧
    (addStepToFlow st step t).selectedSteps = st.selectedSteps := by
  have he : addStepToFlow st step t = st := by
    unfold addStepToFlow
    rw [h]
  exact ⟨he, by rw [he], by rw [he, h], by rw [he]⟩

/-- C10 (witness): the no-op at the initial state, which has no active
flow. -/
theorem addStep_noop_without_active_flow_witness :
    addStepToFlow initialState tmplCvd 42 = initialState ∧
    (addStepToFlow initialState tmplCvd 42).flows = initialState.flows ∧
    (addStepToFlow initialState tmplCvd 42).currentFlow = none ∧
    (addStepToFlow initialState tmplCvd 42).selectedSteps = initialState.selectedSteps :=
  addStep_noop_without_active_flow initialState tmplCvd 42 rfl

end ProcessFlowEditor
